import Mathlib

/-!
Shallow embedding of the attachment-processing pipeline of
`src/email_processor.py` (class `EmailProcessor`), together with proofs of
the specified properties.

External collaborators (IMAP transport, GCS client, SendGrid client, the
wall clock and the thread scheduler) are modelled as explicit parameters:
a fallible collaborator is a function into `Except String _` (the `String`
being the exception message), the per-item wall-clock measurement is a
function from work item to elapsed duration, and the nondeterministic
completion order of `concurrent.futures.as_completed` is a reordering
function `sched` assumed to yield a permutation of the submitted futures.
-/

namespace EmailProcessor

/-- An email attachment as built by `fetch_emails` / the mock generator:
`{'filename': ..., 'size': ..., 'content_type': ..., 'data': base64}`. -/
structure Attachment where
  filename : String
  size : Nat
  content_type : String
  data : String
  deriving DecidableEq

/-- One fetched email record: `{'id', 'subject', 'sender', 'attachments'}`. -/
structure EmailMsg where
  id : String
  subject : String
  sender : String
  attachments : List Attachment
  deriving DecidableEq

/-- The processing-relevant part of `self.config` as built by `load_config`.
`Option String` fields model values that may be unset (`None`); Python
truthiness of these strings is captured by `optFalsy`. -/
structure Config where
  attachment_types : List String
  max_attachment_size_mb : Nat
  max_workers : Nat
  retry_attempts : Nat
  retry_delay_seconds : Nat
  enable_notifications : Bool
  notification_email : Option String
  email_api_key : Option String
  deriving DecidableEq

/-- Python falsiness for an optional string config value: `None` and the
empty string are falsy. -/
def optFalsy : Option String → Bool
  | none => true
  | some s => s.isEmpty

/-- `str.split('.')` over the character sequence: fields between the dots,
keeping empty fields, as Python's `split` with an explicit separator. -/
def splitDot : List Char → List (List Char)
  | [] => [[]]
  | c :: rest =>
    if c = '.' then [] :: splitDot rest
    else
      match splitDot rest with
      | [] => [[c]]
      | f :: fs => (c :: f) :: fs

/-- `filename.split('.')[-1].lower() if '.' in filename else ''`
(line 354 of `email_processor.py`); lowercasing is per character
(`Char.toLower`), which matches Python on the ASCII filenames the
pipeline handles. -/
def extractExtension (filename : String) : String :=
  if filename.toList.contains '.' then
    ⟨((splitDot filename.toList).getLastD []).map Char.toLower⟩
  else ""

/-- `max_size_bytes = self.config['max_attachment_size_mb'] * 1024 * 1024`. -/
def maxSizeBytes (cfg : Config) : Nat :=
  cfg.max_attachment_size_mb * 1024 * 1024

/-- `EmailProcessor.filter_attachments` (lines 338-367): for each attachment,
skip it when its extension is not in `attachment_types`, skip it when its
size exceeds `max_size_bytes`, otherwise append it to the result. -/
def filter_attachments (cfg : Config) : List Attachment → List Attachment
  | [] => []
  | a :: rest =>
    if ¬ (cfg.attachment_types.contains (extractExtension a.filename)) then
      filter_attachments cfg rest
    else if a.size > maxSizeBytes cfg then
      filter_attachments cfg rest
    else
      a :: filter_attachments cfg rest

/-- The acceptance predicate implicit in `filter_attachments`. -/
def acceptsAttachment (cfg : Config) (a : Attachment) : Bool :=
  cfg.attachment_types.contains (extractExtension a.filename) &&
    decide (a.size ≤ maxSizeBytes cfg)

theorem filter_attachments_eq_filter (cfg : Config) (atts : List Attachment) :
    filter_attachments cfg atts = atts.filter (acceptsAttachment cfg) := by
  induction atts with
  | nil => rfl
  | cons a rest ih =>
    simp only [filter_attachments, List.filter_cons, acceptsAttachment]
    by_cases h1 : cfg.attachment_types.contains (extractExtension a.filename)
    · by_cases h2 : a.size > maxSizeBytes cfg
      · simp [h1, h2, Nat.not_le.mpr h2, ih]
      · simp [h1, h2, Nat.not_lt.mp h2, ih]
    · have h1m : ¬ (extractExtension a.filename ∈ cfg.attachment_types) := by
        simpa using h1
      simp [h1, h1m, ih]

theorem mem_filter_attachments (cfg : Config) (atts : List Attachment)
    (a : Attachment) :
    a ∈ filter_attachments cfg atts ↔
      a ∈ atts ∧
        cfg.attachment_types.contains (extractExtension a.filename) = true ∧
        a.size ≤ maxSizeBytes cfg := by
  rw [filter_attachments_eq_filter, List.mem_filter, acceptsAttachment]
  simp [and_assoc]

/-- The parsed record built by `parse_attachment` (lines 369-397): filename,
content type, size, a `None` placeholder for parsed content and the parse
timestamp.  Note the record carries no payload field. -/
structure ParsedAttachment where
  filename : String
  content_type : String
  size : Nat
  parsed_content : Option String
  parsed_at : String
  deriving DecidableEq

/-- `EmailProcessor.parse_attachment`: pure bookkeeping over the attachment
metadata; `now` stands for `datetime.now().isoformat()`. -/
def parse_attachment (now : String) (a : Attachment) : ParsedAttachment :=
  { filename := a.filename
    content_type := a.content_type
    size := a.size
    parsed_content := none
    parsed_at := now }

/-- `EmailProcessor.upload_to_datastore` (lines 399-440): builds the blob
path `current_date/filename`, hands it to the storage collaborator
`put_object`, and converts any exception raised by the collaborator into
`False` (the whole body is wrapped in `try/except`). -/
def upload_to_datastore (put_object : String → Except String Unit)
    (current_date : String) (parsed : ParsedAttachment) : Bool :=
  match put_object (current_date ++ "/" ++ parsed.filename) with
  | .ok _ => true
  | .error _ => false

/-- The result dictionary built by `process_single_attachment`
(lines 458-464): filename, originating subject, success flag, optional
error message and elapsed processing time. -/
structure ProcessingOutcome where
  filename : String
  email_subject : String
  success : Bool
  error : Option String
  processing_time : Nat
  deriving DecidableEq

/-- `EmailProcessor.process_single_attachment` (lines 442-485).  The two
collaborator steps are passed in as fallible functions (`.error e` models
an exception with message `e`, caught by the worker's `try/except`;
`upload` returning `.ok false` models `upload_to_datastore` returning
`False`).  `elapsed` is the wall-clock duration measured around the whole
parse-plus-upload sequence; the code stores it unconditionally after the
`try/except`. -/
def process_single_attachment
    (parse : Attachment → Except String ParsedAttachment)
    (upload : ParsedAttachment → Except String Bool)
    (elapsed : Nat) (attachment : Attachment) (email_subject : String) :
    ProcessingOutcome :=
  let base : ProcessingOutcome :=
    { filename := attachment.filename
      email_subject := email_subject
      success := false
      error := none
      processing_time := 0 }
  let r :=
    match parse attachment with
    | .error e => { base with error := some e }
    | .ok parsed =>
      match upload parsed with
      | .ok true => { base with success := true }
      | .ok false => { base with error := some "Upload failed" }
      | .error e => { base with error := some e }
  { r with processing_time := elapsed }

/-- One unit of work queued for the pool (lines 527-531):
`{'attachment': ..., 'email_subject': ...}`. -/
structure ProcessingContext where
  attachment : Attachment
  email_subject : String
  deriving DecidableEq

/-- The `ThreadPoolExecutor` block of `process_emails` (lines 537-557):
every context is submitted once, and `as_completed` hands back each
future exactly once, in a nondeterministic order modelled by the
reordering function `sched` (assumed in the theorems to yield a
permutation of its input).  `worker_count` is `max_workers`: it bounds
concurrency only and does not affect the collected outcomes. -/
def run_all (worker : ProcessingContext → ProcessingOutcome)
    (_worker_count : Nat) (contexts : List ProcessingContext)
    (sched : List ProcessingContext → List ProcessingContext) :
    List ProcessingOutcome :=
  (sched contexts).map worker

/-- The accumulation performed by the per-email loop of `process_emails`
(lines 512-531): emails-with-attachments counter, eligible-attachments
counter (`total_attachments`), and the flat work list. -/
structure WorkCollection where
  emails_with_attachments : Nat
  total_attachments : Nat
  all_attachments : List ProcessingContext
  deriving DecidableEq

/-- The per-email loop of `process_emails`: an email without attachments is
skipped (counted only in `total_emails`); otherwise its attachments are
filtered and the survivors are appended, paired with the email subject. -/
def collect_work (cfg : Config) : List EmailMsg → WorkCollection
  | [] => ⟨0, 0, []⟩
  | e :: rest =>
    if e.attachments.isEmpty then collect_work cfg rest
    else
      let filtered := filter_attachments cfg e.attachments
      let ctxs := filtered.map fun a => ProcessingContext.mk a e.subject
      let w := collect_work cfg rest
      ⟨w.emails_with_attachments + 1, filtered.length + w.total_attachments,
        ctxs ++ w.all_attachments⟩

/-- `EmailProcessor.fetch_emails`, non-mock path (lines 139-269): the whole
IMAP interaction is wrapped in `try/except`, and any exception makes the
function return the empty list instead of propagating.  `imap_result`
models the outcome of the transport interaction: `.ok emails` on success,
`.error e` when the transport raised. -/
def fetch_emails (imap_result : Except String (List EmailMsg)) :
    List EmailMsg :=
  match imap_result with
  | .ok emails => emails
  | .error _ => []

/-- The notification record assembled by `send_notification`
(lines 579-633): the status string, the no-attachments warning flag and
the four counters interpolated into the HTML body. -/
structure Notification where
  status : String
  warning : Bool
  total_emails : Nat
  emails_with_attachments : Nat
  total : Nat
  processed : Nat
  deriving DecidableEq

/-- `EmailProcessor.send_notification`: returns immediately (sending
nothing) when `notification_email` or `email_api_key` is falsy; otherwise
sends exactly one message with status `'success'` iff `processed == total`
and a warning iff `total_emails > 0 and emails_with_attachments == 0`.
The result is the list of notifications sent. -/
def send_notification (cfg : Config)
    (processed total emails_with_attachments total_emails : Nat) :
    List Notification :=
  if optFalsy cfg.notification_email || optFalsy cfg.email_api_key then []
  else
    [{ status := if processed = total then "success" else "partial"
       warning := decide (0 < total_emails) && decide (emails_with_attachments = 0)
       total_emails := total_emails
       emails_with_attachments := emails_with_attachments
       total := total
       processed := processed }]

/-- Observable trace of one `process_emails` run: how often the fetch
collaborator was invoked, whether a `ThreadPoolExecutor` was created, the
four summary counters, the collected outcomes, the notifications sent,
and the control-flow result (`.error` would model an exception
propagating out of `process_emails` to `run_with_retry`). -/
structure RunTrace where
  fetch_calls : Nat
  pool_spawned : Bool
  total_emails : Nat
  emails_with_attachments : Nat
  total_attachments : Nat
  processed_attachments : Nat
  outcomes : List ProcessingOutcome
  notifications : List Notification
  result : Except String Unit

/-- `EmailProcessor.process_emails` (lines 487-577): fetch once; on an
empty fetch result return early (before any counter, pool or
notification); otherwise run the per-email loop, fan the flat work list
out to the pool (guarded by `if all_attachments:`), count successful
outcomes, and send the summary notification when enabled. -/
def process_emails (cfg : Config)
    (imap_result : Except String (List EmailMsg))
    (parse : Attachment → Except String ParsedAttachment)
    (upload : ParsedAttachment → Except String Bool)
    (elapsed : ProcessingContext → Nat)
    (sched : List ProcessingContext → List ProcessingContext) : RunTrace :=
  let emails := fetch_emails imap_result
  if emails.isEmpty then
    { fetch_calls := 1, pool_spawned := false, total_emails := 0
      emails_with_attachments := 0, total_attachments := 0
      processed_attachments := 0, outcomes := [], notifications := []
      result := .ok () }
  else
    let w := collect_work cfg emails
    let worker := fun ctx =>
      process_single_attachment parse upload (elapsed ctx) ctx.attachment
        ctx.email_subject
    let outcomes :=
      if w.all_attachments.isEmpty then []
      else run_all worker cfg.max_workers w.all_attachments sched
    let processed := (outcomes.filter fun o => o.success).length
    { fetch_calls := 1
      pool_spawned := !w.all_attachments.isEmpty
      total_emails := emails.length
      emails_with_attachments := w.emails_with_attachments
      total_attachments := w.total_attachments
      processed_attachments := processed
      outcomes := outcomes
      notifications :=
        if cfg.enable_notifications then
          send_notification cfg processed w.total_attachments
            w.emails_with_attachments emails.length
        else []
      result := .ok () }

/-- Trace of one `run_with_retry` call: how often `process_emails` was
invoked, how often `time.sleep(retry_delay_seconds)` was invoked, and the
control-flow result (`.error e` models the final re-raise). -/
structure RetryTrace where
  attempts : Nat
  sleeps : Nat
  result : Except String Unit

/-- The loop body of `run_with_retry` (lines 635-652), with
`f attempt` the outcome of `self.process_emails()` on that attempt and
`remaining` the number of loop iterations left
(`retry_attempts - attempt + 1`).  On success: return.  On fault: if
further iterations remain, sleep once and continue; otherwise re-raise. -/
def run_retry_loop (f : Nat → Except String Unit) (attempt : Nat) :
    Nat → RetryTrace
  | 0 => ⟨0, 0, .ok ()⟩
  | remaining + 1 =>
    match f attempt with
    | .ok _ => ⟨1, 0, .ok ()⟩
    | .error e =>
      if remaining = 0 then ⟨1, 0, .error e⟩
      else
        let t := run_retry_loop f (attempt + 1) remaining
        ⟨t.attempts + 1, t.sleeps + 1, t.result⟩

/-- `EmailProcessor.run_with_retry`:
`for attempt in range(1, retry_attempts + 1)` over the loop body above. -/
def run_with_retry (f : Nat → Except String Unit) (retry_attempts : Nat) :
    RetryTrace :=
  run_retry_loop f 1 retry_attempts

/-- `main` (lines 655-662): exit code 0 when `run_with_retry` returns,
exit code 1 (`sys.exit(1)`) when it raises. -/
def main (f : Nat → Except String Unit) (retry_attempts : Nat) : Nat :=
  match (run_with_retry f retry_attempts).result with
  | .ok _ => 0
  | .error _ => 1

/-! ### Helper lemmas -/

theorem collect_work_length (cfg : Config) (emails : List EmailMsg) :
    (collect_work cfg emails).all_attachments.length =
      (collect_work cfg emails).total_attachments := by
  induction emails with
  | nil => rfl
  | cons e rest ih =>
    by_cases h : e.attachments.isEmpty
    · simp [collect_work, h, ih]
    · simp [collect_work, h, ih]

theorem collect_work_total_le (cfg : Config) (emails : List EmailMsg) :
    (collect_work cfg emails).total_attachments ≤
      (emails.map fun e => e.attachments.length).sum := by
  induction emails with
  | nil => simp [collect_work]
  | cons e rest ih =>
    by_cases h : e.attachments.isEmpty
    · simp only [collect_work, h, if_true, List.map_cons, List.sum_cons]
      omega
    · have hfle : (filter_attachments cfg e.attachments).length ≤
          e.attachments.length := by
        rw [filter_attachments_eq_filter]
        exact List.length_filter_le _ _
      simp only [collect_work, h, Bool.false_eq_true, if_false, List.map_cons,
        List.sum_cons]
      omega

theorem send_notification_configured (cfg : Config)
    (pr tot ewa te : Nat)
    (hne : optFalsy cfg.notification_email = false)
    (hak : optFalsy cfg.email_api_key = false) :
    send_notification cfg pr tot ewa te =
      [{ status := if pr = tot then "success" else "partial"
         warning := decide (0 < te) && decide (ewa = 0)
         total_emails := te, emails_with_attachments := ewa
         total := tot, processed := pr }] := by
  simp [send_notification, hne, hak]

theorem run_retry_loop_all_fail (f : Nat → Except String Unit)
    (errs : Nat → String) (attempt r : Nat) (hr : 1 ≤ r)
    (hf : ∀ i, attempt ≤ i → i < attempt + r → f i = .error (errs i)) :
    run_retry_loop f attempt r = ⟨r, r - 1, .error (errs (attempt + r - 1))⟩ := by
  induction r generalizing attempt with
  | zero => omega
  | succ r ih =>
    have hfa : f attempt = .error (errs attempt) := hf attempt le_rfl (by omega)
    by_cases hr0 : r = 0
    · subst hr0
      simp [run_retry_loop, hfa]
    · have ht := ih (attempt + 1) (by omega)
        (fun i h1 h2 => hf i (by omega) (by omega))
      have h1 : r - 1 + 1 = r := by omega
      have h2 : attempt + 1 + r - 1 = attempt + (r + 1) - 1 := by omega
      simp [run_retry_loop, hfa, hr0, ht, h1, h2]

theorem run_retry_loop_first_ok (f : Nat → Except String Unit)
    (attempt r k : Nat) (hk : k < r)
    (hfail : ∀ i, attempt ≤ i → i < attempt + k → ∃ e, f i = .error e)
    (hok : f (attempt + k) = .ok ()) :
    run_retry_loop f attempt r = ⟨k + 1, k, .ok ()⟩ := by
  induction r generalizing attempt k with
  | zero => omega
  | succ r ih =>
    cases k with
    | zero =>
      rw [Nat.add_zero] at hok
      simp [run_retry_loop, hok]
    | succ k =>
      obtain ⟨e, he⟩ := hfail attempt le_rfl (by omega)
      have hr0 : r ≠ 0 := by omega
      have ht := ih (attempt + 1) k (by omega)
        (fun i h1 h2 => hfail i (by omega) (by omega))
        (by rw [show attempt + 1 + k = attempt + (k + 1) by omega]; exact hok)
      simp [run_retry_loop, he, hr0, ht]

theorem run_retry_loop_error_spread (f : Nat → Except String Unit)
    (attempt r : Nat) (e : String)
    (h : (run_retry_loop f attempt r).result = .error e) :
    ∀ i, attempt ≤ i → i < attempt + r → ∃ e', f i = .error e' := by
  induction r generalizing attempt with
  | zero => simp [run_retry_loop] at h
  | succ r ih =>
    intro i h1 h2
    cases hfa : f attempt with
    | ok u =>
      cases u
      simp [run_retry_loop, hfa] at h
    | error e0 =>
      by_cases hi : i = attempt
      · exact hi ▸ ⟨e0, hfa⟩
      · by_cases hr0 : r = 0
        · omega
        · have h' : (run_retry_loop f (attempt + 1) r).result = .error e := by
            simpa [run_retry_loop, hfa, hr0] using h
          exact ih (attempt + 1) h' i (by omega) (by omega)

/-! ### Concrete fixtures used by witnesses and counterexamples -/

/-- The default configuration built by `load_config` from the documented
environment defaults. -/
def cfgDefault : Config :=
  { attachment_types := ["pdf", "doc", "docx", "txt", "csv", "xlsx"]
    max_attachment_size_mb := 25
    max_workers := 4
    retry_attempts := 3
    retry_delay_seconds := 30
    enable_notifications := true
    notification_email := some "ops@example.com"
    email_api_key := some "SG.test-key" }

/-- A configuration whose allow-list contains the empty extension, as
produced by e.g. `ATTACHMENT_TYPES="pdf,"`. -/
def cfgEmptyExt : Config :=
  { cfgDefault with attachment_types := ["pdf", ""] }

def attPdf : Attachment :=
  { filename := "invoice_12345.pdf", size := 512000
    content_type := "application/pdf", data := "QQ==" }

def attNoDot : Attachment :=
  { filename := "README", size := 100
    content_type := "text/plain", data := "QQ==" }

def emailOne : EmailMsg :=
  { id := "email_002", subject := "Invoice #12345"
    sender := "billing@vendor.com", attachments := [attPdf] }

def parseOk : Attachment → Except String ParsedAttachment :=
  fun a => .ok (parse_attachment "2024-01-15T10:30:00" a)

def parseBoom : Attachment → Except String ParsedAttachment :=
  fun _ => .error "parse exploded"

def uploadOk : ParsedAttachment → Except String Bool :=
  fun _ => .ok true

def elapsedZero : ProcessingContext → Nat := fun _ => 0

def ctxA : ProcessingContext :=
  { attachment := attPdf, email_subject := "Invoice #12345" }

def ctxB : ProcessingContext :=
  { attachment := attNoDot, email_subject := "Readme drop" }

def demoWorker : ProcessingContext → ProcessingOutcome :=
  fun ctx =>
    process_single_attachment parseOk uploadOk 0 ctx.attachment
      ctx.email_subject

/-! ### Claims -/

/-- C1: for every work list `W` handed to the pool block of
`process_emails`, every scheduling order (a permutation, which is what
`as_completed` guarantees) and every `worker_count ≥ 1`, the collection
loop yields exactly one `ProcessingOutcome` per submitted item:
`run_all` has the length of `W` and is, as a multiset, exactly one
worker outcome per work item — no drops, no duplicates. -/
theorem run_all_one_outcome_per_context
    (worker : ProcessingContext → ProcessingOutcome) (worker_count : Nat)
    (W : List ProcessingContext)
    (sched : List ProcessingContext → List ProcessingContext)
    (hwc : 1 ≤ worker_count) (hW : W ≠ [])
    (hsched : (sched W).Perm W) :
    (run_all worker worker_count W sched).length = W.length ∧
    (run_all worker worker_count W sched).Perm (W.map worker) := by
  unfold run_all
  exact ⟨by rw [List.length_map, hsched.length_eq], hsched.map worker⟩

theorem run_all_one_outcome_per_context_witness :
    (run_all demoWorker 1 [ctxA, ctxB] List.reverse).length =
      [ctxA, ctxB].length ∧
    (run_all demoWorker 1 [ctxA, ctxB] List.reverse).Perm
      ([ctxA, ctxB].map demoWorker) :=
  run_all_one_outcome_per_context demoWorker 1 [ctxA, ctxB] List.reverse
    (by decide) (by decide) (List.reverse_perm _)

/-- C2 counterexample: the claim asserts that an attachment whose filename
contains no dot is always rejected, but `filter_attachments` maps such a
filename to the extension `''`, and keeps the attachment whenever `''` is
in the configured allow-list (e.g. `ATTACHMENT_TYPES="pdf,"`). -/
theorem filter_attachments_dotless_kept_counterexample :
    attNoDot.filename.toList.contains '.' = false ∧
    attNoDot.size ≤ maxSizeBytes cfgEmptyExt ∧
    filter_attachments cfgEmptyExt [attNoDot] = [attNoDot] := by
  refine ⟨by decide, by decide, by decide⟩

/-- C2 (amended): `filter_attachments` keeps an attachment iff its
lowercased last-dot extension (the empty string when the filename has no
dot) is in the allow-list and its size is at most
`max_attachment_size_mb * 1024 * 1024`; a dotless attachment is rejected
whenever the empty extension is not in the allow-list; an attachment
whose size exactly equals the ceiling is accepted. -/
theorem filter_attachments_accept_characterization (cfg : Config)
    (atts : List Attachment) (a : Attachment) :
    (a ∈ filter_attachments cfg atts ↔
      a ∈ atts ∧
        cfg.attachment_types.contains (extractExtension a.filename) = true ∧
        a.size ≤ maxSizeBytes cfg) ∧
    (a.filename.toList.contains '.' = false →
      cfg.attachment_types.contains "" = false →
      a ∉ filter_attachments cfg atts) ∧
    (a ∈ atts →
      cfg.attachment_types.contains (extractExtension a.filename) = true →
      a.size = maxSizeBytes cfg → a ∈ filter_attachments cfg atts) := by
  refine ⟨mem_filter_attachments cfg atts a, ?_, ?_⟩
  · intro hnd hne hmem
    rw [mem_filter_attachments] at hmem
    have hnd' : ¬ ('.' ∈ a.filename.data) := by simpa using hnd
    have hext : extractExtension a.filename = "" := by
      simp [extractExtension, hnd']
    rw [hext, hne] at hmem
    simp at hmem
  · intro hmem hext hsize
    rw [mem_filter_attachments]
    exact ⟨hmem, hext, le_of_eq hsize⟩

theorem filter_attachments_accept_characterization_witness :
    attPdf ∈ filter_attachments cfgDefault [attPdf] ∧
    attNoDot ∉ filter_attachments cfgDefault [attNoDot] := by
  have h1 := filter_attachments_accept_characterization cfgDefault [attPdf] attPdf
  have h2 := filter_attachments_accept_characterization cfgDefault [attNoDot] attNoDot
  exact ⟨h1.1.mpr ⟨by decide, by decide, by decide⟩,
    h2.2.1 (by decide) (by decide)⟩

/-- C5: `process_single_attachment` is a total function into
`ProcessingOutcome` (it cannot raise): a parse exception, an upload
exception, or an upload returning `False` each produce
`success = false` together with an error description, a successful upload
produces `success = true`, and in every case the recorded
`processing_time` is the elapsed duration measured around the whole
parse-plus-persist sequence. -/
theorem process_single_attachment_never_raises
    (parse : Attachment → Except String ParsedAttachment)
    (upload : ParsedAttachment → Except String Bool)
    (elapsed : Nat) (a : Attachment) (subj : String) :
    (process_single_attachment parse upload elapsed a subj).processing_time
        = elapsed ∧
    (process_single_attachment parse upload elapsed a subj).filename
        = a.filename ∧
    (process_single_attachment parse upload elapsed a subj).email_subject
        = subj ∧
    (∀ e, parse a = .error e →
      (process_single_attachment parse upload elapsed a subj).success = false ∧
      (process_single_attachment parse upload elapsed a subj).error = some e) ∧
    (∀ p e, parse a = .ok p → upload p = .error e →
      (process_single_attachment parse upload elapsed a subj).success = false ∧
      (process_single_attachment parse upload elapsed a subj).error = some e) ∧
    (∀ p, parse a = .ok p → upload p = .ok false →
      (process_single_attachment parse upload elapsed a subj).success = false ∧
      (process_single_attachment parse upload elapsed a subj).error
          = some "Upload failed") ∧
    (∀ p, parse a = .ok p → upload p = .ok true →
      (process_single_attachment parse upload elapsed a subj).success = true) := by
  cases hp : parse a with
  | error e0 => simp [process_single_attachment, hp]
  | ok p =>
    cases hu : upload p with
    | error e0 =>
      simp [process_single_attachment, hp, hu]
      intro p1 e h1 h2
      subst h1
      rw [hu] at h2
      cases h2
      rfl
    | ok b =>
      cases b
      · simp [process_single_attachment, hp, hu]
        intro p1 e h1 h2
        subst h1
        rw [hu] at h2
        simp at h2
      · simp [process_single_attachment, hp, hu]
        intro p1 e h1 h2
        subst h1
        rw [hu] at h2
        simp at h2

theorem process_single_attachment_never_raises_witness :
    (process_single_attachment parseBoom uploadOk 7 attPdf "Invoice #12345").success
        = false ∧
    (process_single_attachment parseBoom uploadOk 7 attPdf "Invoice #12345").error
        = some "parse exploded" ∧
    (process_single_attachment parseBoom uploadOk 7 attPdf "Invoice #12345").processing_time
        = 7 := by
  have h := process_single_attachment_never_raises parseBoom uploadOk 7 attPdf
    "Invoice #12345"
  have h4 := h.2.2.2.1 "parse exploded" rfl
  exact ⟨h4.1, h4.2, h.1⟩

/-- C10: `filter_attachments` returns an order-preserving subsequence of
its input: the output embeds into the input as a sublist, so each kept
attachment is an unmodified element of the input and relative order is
preserved (the input list itself is untouched, the function being pure). -/
theorem filter_attachments_sublist (cfg : Config) (atts : List Attachment) :
    (filter_attachments cfg atts).Sublist atts := by
  rw [filter_attachments_eq_filter]
  exact List.filter_sublist atts

theorem process_emails_notifications_nonempty (cfg : Config)
    (r : Except String (List EmailMsg))
    (parse : Attachment → Except String ParsedAttachment)
    (upload : ParsedAttachment → Except String Bool)
    (elapsed : ProcessingContext → Nat)
    (sched : List ProcessingContext → List ProcessingContext)
    (hie : (fetch_emails r).isEmpty = false)
    (hen : cfg.enable_notifications = true) :
    (process_emails cfg r parse upload elapsed sched).notifications =
      send_notification cfg
        (process_emails cfg r parse upload elapsed sched).processed_attachments
        (process_emails cfg r parse upload elapsed sched).total_attachments
        (process_emails cfg r parse upload elapsed sched).emails_with_attachments
        (process_emails cfg r parse upload elapsed sched).total_emails := by
  simp only [process_emails, hie, Bool.false_eq_true, if_false, hen, if_true]

/-- C3 counterexample: with notifications fully configured (enabled, sink
and API key present), a run whose fetch yields an empty message list
returns early at line 499-501 and sends no notification at all — the
claim's "exactly one summary notification ... including the run where the
fetch returns an empty message list" fails on this input. -/
theorem empty_fetch_sends_no_notification :
    cfgDefault.enable_notifications = true ∧
    optFalsy cfgDefault.notification_email = false ∧
    optFalsy cfgDefault.email_api_key = false ∧
    (process_emails cfgDefault (.ok []) parseOk uploadOk elapsedZero
      id).notifications.length = 0 := by
  refine ⟨rfl, rfl, rfl, rfl⟩

/-- C3 (amended): with notifications configured (enabled, sink and API key
present), `process_emails` sends exactly one summary notification for
every run whose fetch yields at least one message — regardless of how
many attachments succeeded — with status `"success"` iff
`processed = eligible` and `"partial"` otherwise, and a warning exactly
when messages existed but none had attachments; a run whose fetch yields
an empty list returns early and sends no notification. -/
theorem notification_exactly_one_when_emails_nonempty (cfg : Config)
    (r : Except String (List EmailMsg))
    (parse : Attachment → Except String ParsedAttachment)
    (upload : ParsedAttachment → Except String Bool)
    (elapsed : ProcessingContext → Nat)
    (sched : List ProcessingContext → List ProcessingContext)
    (hen : cfg.enable_notifications = true)
    (hne : optFalsy cfg.notification_email = false)
    (hak : optFalsy cfg.email_api_key = false) :
    (fetch_emails r = [] →
      (process_emails cfg r parse upload elapsed sched).notifications = []) ∧
    (fetch_emails r ≠ [] →
      (process_emails cfg r parse upload elapsed sched).notifications.length
          = 1 ∧
      ∀ n ∈ (process_emails cfg r parse upload elapsed sched).notifications,
        (n.status =
          if (process_emails cfg r parse upload elapsed sched).processed_attachments
              = (process_emails cfg r parse upload elapsed sched).total_attachments
          then "success" else "partial") ∧
        (n.warning = true ↔
          0 < (process_emails cfg r parse upload elapsed sched).total_emails ∧
          (process_emails cfg r parse upload elapsed sched).emails_with_attachments
              = 0)) := by
  constructor
  · intro hfe
    simp [process_emails, hfe]
  · intro hfe
    have hie : (fetch_emails r).isEmpty = false := by
      cases h : fetch_emails r with
      | nil => exact absurd h hfe
      | cons a l => rfl
    rw [process_emails_notifications_nonempty cfg r parse upload elapsed sched
        hie hen,
      send_notification_configured cfg _ _ _ _ hne hak]
    refine ⟨rfl, ?_⟩
    intro n hn
    rw [List.mem_singleton] at hn
    subst hn
    refine ⟨rfl, ?_⟩
    simp

theorem notification_exactly_one_when_emails_nonempty_witness :
    (process_emails cfgDefault (.ok [emailOne]) parseOk uploadOk elapsedZero
      id).notifications.length = 1 := by
  have h := notification_exactly_one_when_emails_nonempty cfgDefault
    (.ok [emailOne]) parseOk uploadOk elapsedZero id rfl rfl rfl
  exact (h.2 (by decide)).1

/-- C4 counterexample: the claim says a message-fetch fault aborts the
attempt and propagates to the retry runner; in the code `fetch_emails`
catches every exception and returns `[]` (lines 267-269), so a run whose
transport faults completes normally — `process_emails` returns without
fault and the retry runner performs a single attempt with no retry. -/
theorem fetch_fault_completes_normally :
    fetch_emails (.error "IMAP connection refused") = [] ∧
    (process_emails cfgDefault (.error "IMAP connection refused") parseOk
      uploadOk elapsedZero id).result = .ok () ∧
    (run_with_retry
      (fun _ => (process_emails cfgDefault (.error "IMAP connection refused")
        parseOk uploadOk elapsedZero id).result) 3).attempts = 1 := by
  refine ⟨rfl, rfl, rfl⟩

/-- C4 (amended): a transport fault during the fetch is caught inside
`fetch_emails` and converted into an empty message list, so the run
completes normally with a zero summary and no notification, and the
fault never reaches `run_with_retry`: for any `retry_attempts ≥ 1` the
runner makes exactly one attempt and never sleeps. -/
theorem fetch_fault_swallowed (cfg : Config) (e : String)
    (parse : Attachment → Except String ParsedAttachment)
    (upload : ParsedAttachment → Except String Bool)
    (elapsed : ProcessingContext → Nat)
    (sched : List ProcessingContext → List ProcessingContext)
    (n : Nat) (hn : 1 ≤ n) :
    fetch_emails (.error e) = [] ∧
    (process_emails cfg (.error e) parse upload elapsed sched).result
        = .ok () ∧
    (process_emails cfg (.error e) parse upload elapsed sched).notifications
        = [] ∧
    (process_emails cfg (.error e) parse upload elapsed sched).total_emails
        = 0 ∧
    (run_with_retry
      (fun _ => (process_emails cfg (.error e) parse upload elapsed
        sched).result) n).attempts = 1 ∧
    (run_with_retry
      (fun _ => (process_emails cfg (.error e) parse upload elapsed
        sched).result) n).sleeps = 0 := by
  have hres : (process_emails cfg (.error e) parse upload elapsed sched).result
      = .ok () := rfl
  refine ⟨rfl, rfl, rfl, rfl, ?_, ?_⟩
  · cases n with
    | zero => omega
    | succ m => simp [run_with_retry, run_retry_loop, hres]
  · cases n with
    | zero => omega
    | succ m => simp [run_with_retry, run_retry_loop, hres]

theorem fetch_fault_swallowed_witness :
    fetch_emails (.error "IMAP connect timeout") = [] ∧
    (process_emails cfgDefault (.error "IMAP connect timeout") parseOk
      uploadOk elapsedZero id).result = .ok () ∧
    (process_emails cfgDefault (.error "IMAP connect timeout") parseOk
      uploadOk elapsedZero id).notifications = [] ∧
    (process_emails cfgDefault (.error "IMAP connect timeout") parseOk
      uploadOk elapsedZero id).total_emails = 0 ∧
    (run_with_retry
      (fun _ => (process_emails cfgDefault (.error "IMAP connect timeout")
        parseOk uploadOk elapsedZero id).result) 3).attempts = 1 ∧
    (run_with_retry
      (fun _ => (process_emails cfgDefault (.error "IMAP connect timeout")
        parseOk uploadOk elapsedZero id).result) 3).sleeps = 0 :=
  fetch_fault_swallowed cfgDefault "IMAP connect timeout" parseOk uploadOk
    elapsedZero id 3 (by omega)

/-- C6: if the first `k` attempts of `process_emails` fault and attempt
`k + 1` succeeds, with `k + 1 ≤ retry_attempts`, then `run_with_retry`
returns normally, invokes the inter-attempt delay exactly `k` times and
makes exactly `k + 1` attempts (so for `retry_attempts = 3` with faults
on attempts 1 and 2 and success on attempt 3: success with exactly two
delays). -/
theorem run_with_retry_success_after_k_faults (f : Nat → Except String Unit)
    (k n : Nat) (hkn : k + 1 ≤ n)
    (hfail : ∀ i, 1 ≤ i → i ≤ k → ∃ e, f i = .error e)
    (hok : f (k + 1) = .ok ()) :
    (run_with_retry f n).result = .ok () ∧
    (run_with_retry f n).sleeps = k ∧
    (run_with_retry f n).attempts = k + 1 := by
  have h := run_retry_loop_first_ok f 1 n k (by omega)
    (fun i h1 h2 => hfail i h1 (by omega))
    (by rw [Nat.add_comm] at hok; exact hok)
  rw [run_with_retry, h]
  exact ⟨rfl, rfl, rfl⟩

def flakyTwice : Nat → Except String Unit :=
  fun i => if i ≤ 2 then .error "temporary outage" else .ok ()

theorem run_with_retry_success_after_k_faults_witness :
    (run_with_retry flakyTwice 3).result = .ok () ∧
    (run_with_retry flakyTwice 3).sleeps = 2 ∧
    (run_with_retry flakyTwice 3).attempts = 3 := by
  have h := run_with_retry_success_after_k_faults flakyTwice 2 3 (by omega)
    (fun i h1 h2 => ⟨"temporary outage", by simp [flakyTwice, h2]⟩)
    (by simp [flakyTwice])
  exact ⟨h.1, h.2.1, h.2.2⟩

/-- C7: if every attempt of `process_emails` faults, `run_with_retry`
makes exactly `retry_attempts` attempts (with `retry_attempts ≥ 1`), no
more, then re-raises the fault of the last attempt, and `main` exits
abnormally (code 1); conversely this exhaustion is the only abnormal
termination: whenever `main` exits with code 1, every attempt within the
budget faulted. -/
theorem run_with_retry_exhaustion_fatal (f : Nat → Except String Unit)
    (errs : Nat → String) (n : Nat) (hn : 1 ≤ n)
    (hfail : ∀ i, 1 ≤ i → i ≤ n → f i = .error (errs i)) :
    (run_with_retry f n).attempts = n ∧
    (run_with_retry f n).result = .error (errs n) ∧
    main f n = 1 ∧
    (∀ g : Nat → Except String Unit, main g n = 1 →
      ∀ i, 1 ≤ i → i ≤ n → ∃ e, g i = .error e) := by
  have h := run_retry_loop_all_fail f errs 1 n hn
    (fun i h1 h2 => hfail i h1 (by omega))
  have he : 1 + n - 1 = n := by omega
  rw [he] at h
  refine ⟨?_, ?_, ?_, ?_⟩
  · rw [run_with_retry, h]
  · rw [run_with_retry, h]
  · rw [main, run_with_retry, h]
  · intro g hg i h1 h2
    cases hres : (run_with_retry g n).result with
    | ok u =>
      rw [main] at hg
      rw [hres] at hg
      simp at hg
    | error e =>
      have hres' : (run_retry_loop g 1 n).result = .error e := hres
      exact run_retry_loop_error_spread g 1 n e hres' i h1 (by omega)

def alwaysDown : Nat → Except String Unit :=
  fun _ => .error "mailbox unreachable"

theorem run_with_retry_exhaustion_fatal_witness :
    (run_with_retry alwaysDown 2).attempts = 2 ∧
    (run_with_retry alwaysDown 2).result = .error "mailbox unreachable" ∧
    main alwaysDown 2 = 1 := by
  have h := run_with_retry_exhaustion_fatal alwaysDown
    (fun _ => "mailbox unreachable") 2 (by omega) (fun i h1 h2 => rfl)
  exact ⟨h.1, h.2.1, h.2.2.1⟩

/-- C8: `process_emails` invokes the message-fetch collaborator exactly
once per run, and when the fetch yields an empty list the run returns
early without fault: the whole trace is the zero summary — no pool
spawned, no outcomes, no notification, all counters zero. -/
theorem process_emails_single_fetch_and_empty_early_return (cfg : Config)
    (r : Except String (List EmailMsg))
    (parse : Attachment → Except String ParsedAttachment)
    (upload : ParsedAttachment → Except String Bool)
    (elapsed : ProcessingContext → Nat)
    (sched : List ProcessingContext → List ProcessingContext) :
    (process_emails cfg r parse upload elapsed sched).fetch_calls = 1 ∧
    (fetch_emails r = [] →
      process_emails cfg r parse upload elapsed sched =
        { fetch_calls := 1, pool_spawned := false, total_emails := 0
          emails_with_attachments := 0, total_attachments := 0
          processed_attachments := 0, outcomes := [], notifications := []
          result := .ok () }) := by
  constructor
  · by_cases h : (fetch_emails r).isEmpty
    · simp [process_emails, h]
    · simp [process_emails, h]
  · intro hfe
    simp [process_emails, hfe]

theorem process_emails_single_fetch_and_empty_early_return_witness :
    (process_emails cfgDefault (.ok []) parseOk uploadOk elapsedZero
      id).fetch_calls = 1 ∧
    process_emails cfgDefault (.ok []) parseOk uploadOk elapsedZero id =
      { fetch_calls := 1, pool_spawned := false, total_emails := 0
        emails_with_attachments := 0, total_attachments := 0
        processed_attachments := 0, outcomes := [], notifications := []
        result := .ok () } := by
  have h := process_emails_single_fetch_and_empty_early_return cfgDefault
    (.ok []) parseOk uploadOk elapsedZero id
  exact ⟨h.1, h.2 rfl⟩

/-- C9: in every run the aggregated counters satisfy
`processed ≤ eligible ≤ total-attachments-seen`: the successful-outcome
count never exceeds the number of attachments surviving the filter
across all messages, which never exceeds the number of attachments
carried by the fetched messages before filtering. -/
theorem process_emails_counter_invariant (cfg : Config)
    (r : Except String (List EmailMsg))
    (parse : Attachment → Except String ParsedAttachment)
    (upload : ParsedAttachment → Except String Bool)
    (elapsed : ProcessingContext → Nat)
    (sched : List ProcessingContext → List ProcessingContext)
    (hsched : ∀ l, (sched l).Perm l) :
    (process_emails cfg r parse upload elapsed sched).processed_attachments ≤
      (process_emails cfg r parse upload elapsed sched).total_attachments ∧
    (process_emails cfg r parse upload elapsed sched).total_attachments ≤
      ((fetch_emails r).map fun e => e.attachments.length).sum := by
  by_cases h : (fetch_emails r).isEmpty
  · have hfe : fetch_emails r = [] := by
      cases hc : fetch_emails r with
      | nil => rfl
      | cons a l => rw [hc] at h; simp at h
    simp [process_emails, hfe]
  · constructor
    · simp only [process_emails, h, Bool.false_eq_true, if_false]
      by_cases hc : (collect_work cfg (fetch_emails r)).all_attachments.isEmpty
      · simp [hc]
      · simp only [hc, Bool.false_eq_true, if_false]
        have h1 := List.length_filter_le (fun o : ProcessingOutcome => o.success)
          (run_all
            (fun ctx => process_single_attachment parse upload (elapsed ctx)
              ctx.attachment ctx.email_subject)
            cfg.max_workers
            (collect_work cfg (fetch_emails r)).all_attachments sched)
        have h2 : (run_all
            (fun ctx => process_single_attachment parse upload (elapsed ctx)
              ctx.attachment ctx.email_subject)
            cfg.max_workers
            (collect_work cfg (fetch_emails r)).all_attachments sched).length
            = (collect_work cfg (fetch_emails r)).all_attachments.length := by
          rw [run_all, List.length_map]
          exact (hsched _).length_eq
        have h3 := collect_work_length cfg (fetch_emails r)
        omega
    · simp only [process_emails, h, Bool.false_eq_true, if_false]
      exact collect_work_total_le cfg (fetch_emails r)

theorem process_emails_counter_invariant_witness :
    (process_emails cfgDefault (.ok [emailOne]) parseOk uploadOk elapsedZero
      id).processed_attachments ≤
      (process_emails cfgDefault (.ok [emailOne]) parseOk uploadOk elapsedZero
        id).total_attachments ∧
    (process_emails cfgDefault (.ok [emailOne]) parseOk uploadOk elapsedZero
      id).total_attachments ≤
      ((fetch_emails (.ok [emailOne])).map fun e => e.attachments.length).sum :=
  process_emails_counter_invariant cfgDefault (.ok [emailOne]) parseOk
    uploadOk elapsedZero id (fun l => List.Perm.refl l)

end EmailProcessor
